import Mathlib

/-!
# Chat comments dashboard preview: derived totals and chart bindings

A shallow embedding of `src/chat_comments_dashboard_preview.jsx`.

The module holds four literal arrays (`activityTimeline`, `topTopics`, `topUsers`,
`reactions`), derives two totals from them with `Array.prototype.reduce`, and binds arrays
and totals to chart widgets and cards in one component.

The embedding has three layers:

* the JavaScript values and operators the module applies to its data (`||`, `+`,
  `Math.min`, template literals, text children);
* the records, the embedded arrays and the two derived totals;
* the bindings the component hands to the chart widgets and the cards it builds.

JavaScript numbers are IEEE 754 doubles.  The data model of the dashboard only holds counts,
so the number fragment modelled here is: the non-negative integers that are doubles,
`+Infinity` (which a sum of such integers can overflow to) and `NaN` (falsy, and the numeric
reading of `undefined`).  Addition rounds to the nearest double, ties to even, exactly as the
language does.
-/

namespace Dashboard

/-! ## Numbers -/

/-- A JavaScript number of the modelled fragment: a non-negative integer, `+Infinity` or
`NaN`.  A value `fin n` is a number of the language only when `n` is a double
(`IsDouble n` below). -/
inductive JSNum where
  | fin (n : Nat)
  | inf
  | nan
  deriving DecidableEq, Repr

/-- Number of binary digits of `n` beyond the 53 a double's significand holds: the least `k`
with `n / 2 ^ k < 2 ^ 53`, as long as `k` does not exceed the fuel. -/
def binadeShift : Nat → Nat → Nat
  | 0, _ => 0
  | fuel + 1, n => if n < 2 ^ 53 then 0 else binadeShift fuel (n / 2) + 1

/-- The value `2 ^ 1024`: the first power of two that is no finite double. -/
def OVERFLOW : Nat := (2 ^ 256) ^ 4

/-- Rounding of an exact non-negative integer to the nearest double, ties to the even
significand; results of magnitude `2 ^ 1024` or more are `+Infinity`.  Integers below
`2 ^ 53` are doubles and are kept. -/
def toDouble (n : Nat) : JSNum :=
  if n < 2 ^ 53 then .fin n
  else if OVERFLOW ≤ n then .inf
  else
    let k := binadeShift 971 n
    let q := n / 2 ^ k
    let r := n % 2 ^ k
    let up := if 2 ^ (k - 1) < r ∨ (r = 2 ^ (k - 1) ∧ q % 2 = 1) then q + 1 else q
    if up * 2 ^ k < OVERFLOW then .fin (up * 2 ^ k) else .inf

/-- The non-negative integer `n` is a double: rounding leaves it unchanged. -/
def IsDouble (n : Nat) : Prop := toDouble n = .fin n

instance (n : Nat) : Decidable (IsDouble n) := by
  unfold IsDouble
  infer_instance

/-- Addition of two numbers (`Number::add`) on the fragment: the exact sum, rounded. -/
def numAdd : JSNum → JSNum → JSNum
  | .nan, _ => .nan
  | _, .nan => .nan
  | .inf, _ => .inf
  | _, .inf => .inf
  | .fin a, .fin b => toDouble (a + b)

/-- The function `Math.min` on two numbers: `NaN` when either is `NaN`, else the smaller
one. -/
def mathMin : JSNum → JSNum → JSNum
  | .nan, _ => .nan
  | _, .nan => .nan
  | .inf, y => y
  | x, .inf => x
  | .fin a, .fin b => .fin (min a b)

/-- Order of the numbers of the fragment; `NaN` is comparable with nothing. -/
def JSNum.le : JSNum → JSNum → Prop
  | .fin a, .fin b => a ≤ b
  | .fin _, .inf => True
  | .inf, .inf => True
  | _, _ => False

instance (x y : JSNum) : Decidable (JSNum.le x y) := by
  cases x <;> cases y <;> simp only [JSNum.le] <;> infer_instance

/-- Number of decimal digits of `n`. -/
def decimalLength (n : Nat) : Nat := (Nat.toDigits 10 n).length

/-- The digit string of length `k` for the double `v` of `len` decimal digits, when one
exists: a pair `(s, n)` such that `s * 10 ^ (n - k)` rounds to `v`, the one nearest to `v`
(the even `s` on a tie). -/
def digitCandidate (v len k : Nat) : Option (Nat × Nat) :=
  let p := 10 ^ (len - k)
  let lo := v / p
  let hi := lo + 1
  let okLo := decide (toDouble (lo * p) = .fin v)
  let okHi := decide (toDouble (hi * p) = .fin v)
  let dLo := v - lo * p
  let dHi := hi * p - v
  let pickLo : Option (Nat × Nat) := some (lo, len)
  let pickHi : Option (Nat × Nat) :=
    if hi = 10 ^ k then some (10 ^ (k - 1), len + 1) else some (hi, len)
  if okLo && okHi then
    (if dLo < dHi ∨ (dLo = dHi ∧ lo % 2 = 0) then pickLo else pickHi)
  else if okLo then pickLo
  else if okHi then pickHi
  else none

/-- The shortest digit string that reads back as the double `v`: `(k, s, n)` with `k` the
number of digits of `s`, searched from `k` upwards. -/
def shortestDigits (v len : Nat) : Nat → Nat → Nat × Nat × Nat
  | 0, k => (k, v, len)
  | fuel + 1, k =>
    match digitCandidate v len k with
    | some (s, n) => (k, s, n)
    | none => shortestDigits v len fuel (k + 1)

/-- The operation `Number::toString` (radix 10) on the fragment.  An integer below `2 ^ 53` prints as its
decimal digits; a larger double prints the shortest digits that read back as it, in
positional form up to 21 digits and in exponent form beyond. -/
def numberToString : JSNum → String
  | .nan => "NaN"
  | .inf => "Infinity"
  | .fin v =>
    if v < 2 ^ 53 then Nat.repr v
    else
      let len := decimalLength v
      let (k, s, n) := shortestDigits v len (min 17 len) 1
      let ds := Nat.repr s
      if n ≤ 21 then ds ++ String.mk (List.replicate (n - k) '0')
      else if k = 1 then ds ++ "e+" ++ Nat.repr (n - 1)
      else ds.take 1 ++ "." ++ ds.drop 1 ++ "e+" ++ Nat.repr (n - 1)

/-! ## Values and operators -/

/-- A JavaScript value a record field of the dashboard can hold: a missing field reads as
`undefined`. -/
inductive JSValue where
  | undefined
  | null
  | bool (b : Bool)
  | num (x : JSNum)
  | str (s : String)
  deriving DecidableEq, Repr

/-- The operation `ToBoolean`: `undefined`, `null`, `false`, `0`, `NaN` and the empty string are falsy. -/
def toBoolean : JSValue → Bool
  | .undefined => false
  | .null => false
  | .bool b => b
  | .num (.fin n) => n != 0
  | .num .inf => true
  | .num .nan => false
  | .str s => s != ""

/-- The operator `l || r`: `l` when it is truthy, else `r`. -/
def jsOr (l r : JSValue) : JSValue := if toBoolean l then l else r

/-- The operation `ToString`, which template literals apply to their holes. -/
def toStringJS : JSValue → String
  | .undefined => "undefined"
  | .null => "null"
  | .bool true => "true"
  | .bool false => "false"
  | .num x => numberToString x
  | .str s => s

/-- The operation `ToNumber` on a value that is not a string.  The numeric reading of a string
(`StringToNumber`) can leave the number fragment and is not modelled: `none`. -/
def toNumber : JSValue → Option JSNum
  | .undefined => some .nan
  | .null => some (.fin 0)
  | .bool true => some (.fin 1)
  | .bool false => some (.fin 0)
  | .num x => some x
  | .str _ => none

/-- The operator `l + r`: string concatenation when either operand is a string, else the sum
of the numeric readings of both. -/
def jsAdd : JSValue → JSValue → JSValue
  | .str a, r => .str (a ++ toStringJS r)
  | l, .str b => .str (toStringJS l ++ b)
  | l, r => .num (numAdd ((toNumber l).getD .nan) ((toNumber r).getD .nan))

/-- The call `Math.min(100, v)`; `none` when `v` is a string (see `toNumber`). -/
def mathMin100 (v : JSValue) : Option JSNum := (toNumber v).map (mathMin (.fin 100))

/-- Text a JSX text child `{v}` renders: numbers and strings as their text, `undefined`,
`null` and booleans as nothing. -/
def textChild : JSValue → String
  | .num x => numberToString x
  | .str s => s
  | _ => ""

/-! ## Records, embedded arrays and derived totals -/

/-- The theme colors the records and the view refer to. -/
structure Theme where
  background : String
  card : String
  primaryText : String
  secondaryText : String
  accentYellow : String
  accentBlue : String
  accentGreen : String
  orange : String
  red : String
  purple : String
  neutralGray : String

/-- The object `COLORS` of the module. -/
def COLORS : Theme where
  background := "#0D1117"
  card := "#161B22"
  primaryText := "#E6E6E6"
  secondaryText := "#A3A3A3"
  accentYellow := "#F7C843"
  accentBlue := "#58A6FF"
  accentGreen := "#3FB950"
  orange := "#FFA657"
  red := "#F85149"
  purple := "#B281EB"
  neutralGray := "#6E7681"

/-- An entry of `activityTimeline`. -/
structure TimelinePoint where
  date : JSValue
  messages : JSValue
  deriving DecidableEq, Repr

/-- An entry of `topTopics`. -/
structure TopicCount where
  name : JSValue
  value : JSValue
  deriving DecidableEq, Repr

/-- An entry of `topUsers`. -/
structure Contributor where
  name : JSValue
  messages : JSValue
  engagement : JSValue
  deriving DecidableEq, Repr

/-- An entry of `reactions`. -/
structure Reaction where
  name : JSValue
  value : JSValue
  color : JSValue
  deriving DecidableEq, Repr

/-- Property read `p[key]` on a timeline entry; a key the entry lacks reads `undefined`. -/
def TimelinePoint.get (p : TimelinePoint) (key : String) : JSValue :=
  if key = "date" then p.date else if key = "messages" then p.messages else .undefined

/-- Property read `t[key]` on a topic entry. -/
def TopicCount.get (t : TopicCount) (key : String) : JSValue :=
  if key = "name" then t.name else if key = "value" then t.value else .undefined

/-- Property read `r[key]` on a reaction entry. -/
def Reaction.get (r : Reaction) (key : String) : JSValue :=
  if key = "name" then r.name else if key = "value" then r.value
  else if key = "color" then r.color else .undefined

/-- A count literal of the source. -/
def count (n : Nat) : JSValue := .num (.fin n)

/-- The array `activityTimeline` of the module. -/
def activityTimeline : List TimelinePoint :=
  [ ⟨.str "Jul 22", count 3⟩, ⟨.str "Jul 24", count 2⟩, ⟨.str "Jul 28", count 1⟩,
    ⟨.str "Aug 11", count 1⟩, ⟨.str "Aug 13", count 2⟩, ⟨.str "Aug 14", count 1⟩,
    ⟨.str "Aug 18", count 1⟩, ⟨.str "Aug 19", count 2⟩, ⟨.str "Sep 16", count 1⟩,
    ⟨.str "Sep 17", count 2⟩, ⟨.str "Sep 18", count 1⟩, ⟨.str "Sep 21", count 1⟩,
    ⟨.str "Sep 24", count 2⟩, ⟨.str "Sep 30", count 1⟩, ⟨.str "Oct 6", count 3⟩,
    ⟨.str "Oct 20", count 1⟩ ]

/-- The array `topTopics` of the module. -/
def topTopics : List TopicCount :=
  [ ⟨.str "News", count 7⟩, ⟨.str "Outlook", count 5⟩, ⟨.str "Password", count 4⟩,
    ⟨.str "Feedback Assistant", count 2⟩, ⟨.str "Speed", count 2⟩,
    ⟨.str "Performance", count 2⟩, ⟨.str "Connectivity", count 1⟩,
    ⟨.str "Display", count 1⟩ ]

/-- The array `topUsers` of the module. -/
def topUsers : List Contributor :=
  [ ⟨.str "Jesper Johansson", count 7, count 102⟩,
    ⟨.str "Carlos Garcia", count 8, count 47⟩,
    ⟨.str "Ashish Gupta", count 1, count 26⟩,
    ⟨.str "Tushar Kohli", count 3, count 20⟩,
    ⟨.str "Vinoth Boobalan", count 3, count 20⟩ ]

/-- The array `reactions` of the module (the names are the characters of the source file). -/
def reactions : List Reaction :=
  [ ⟨.str "Like ðŸ‘", count 38, .str COLORS.accentBlue⟩,
    ⟨.str "Love â¤ï¸", count 24, .str COLORS.red⟩,
    ⟨.str "Insightful ðŸ’¡", count 12, .str COLORS.accentYellow⟩,
    ⟨.str "Confused ðŸ¤”", count 8, .str COLORS.purple⟩ ]

/-- The derivation `reactions.reduce((s, r) => s + (r.value || 0), 0)`. -/
def totalReactions (rs : List Reaction) : JSValue :=
  rs.foldl (fun s r => jsAdd s (jsOr r.value (count 0))) (count 0)

/-- The derivation `topUsers.reduce((s, u) => s + (u.engagement || 0), 0)`. -/
def totalResponses (us : List Contributor) : JSValue :=
  us.foldl (fun s u => jsAdd s (jsOr u.engagement (count 0))) (count 0)

/-! ## The component -/

/-- The four arrays a render pass reads. -/
structure Collections where
  activityTimeline : List TimelinePoint
  topTopics : List TopicCount
  topUsers : List Contributor
  reactions : List Reaction

/-- The module once loaded: the four arrays and the two totals derived from them. -/
structure Module where
  data : Collections
  totalReactions : JSValue
  totalResponses : JSValue

/-- Module initialisation: the totals are computed once, from the arrays. -/
def load (c : Collections) : Module :=
  { data := c
    totalReactions := totalReactions c.reactions
    totalResponses := totalResponses c.topUsers }

/-- The arrays embedded in the source. -/
def sample : Collections :=
  { activityTimeline := activityTimeline
    topTopics := topTopics
    topUsers := topUsers
    reactions := reactions }

/-- Props of `<LineChart data=...>` with its `<XAxis dataKey>` and `<Line dataKey>`. -/
structure LineChart where
  data : List TimelinePoint
  xDataKey : String
  lineDataKey : String

/-- The points the line chart reads from its props: one `(x, y)` per entry, in the order of
`data`. -/
def LineChart.points (c : LineChart) : List (JSValue × JSValue) :=
  c.data.map (fun p => (p.get c.xDataKey, p.get c.lineDataKey))

/-- Props of `<BarChart data=... layout="vertical">` with its `<YAxis dataKey>` and
`<Bar dataKey>`. -/
structure BarChart where
  data : List TopicCount
  categoryDataKey : String
  barDataKey : String

/-- The two summary boxes. -/
structure Summary where
  totalReactions : String
  users : String
  totalResponses : String
  reactions : String

/-- A contributor card. -/
structure ContributorCard where
  key : String
  name : String
  messages : String
  engagement : String
  barWidth : Option String
  deriving DecidableEq, Repr

/-- The card `topUsers.map((u) => ...)` builds for `u`; the width of the bar is the template
literal of `Math.min(100, u.engagement)` followed by a percent sign. -/
def contributorCard (u : Contributor) : ContributorCard :=
  { key := toStringJS u.name
    name := textChild u.name
    messages := textChild u.messages ++ " messages"
    engagement := textChild u.engagement
    barWidth := (mathMin100 u.engagement).map (fun w => numberToString w ++ "%") }

/-- A `<Cell>` of the pie. -/
structure PieCell where
  key : String
  fill : JSValue
  deriving DecidableEq, Repr

/-- The label callback of the pie: the template literal of `name`, a colon and `value`. -/
def pieLabel (name value : JSValue) : String :=
  toStringJS name ++ ": " ++ toStringJS value

/-- Props and children of `<Pie data=... dataKey nameKey label>`. -/
structure Pie where
  data : List Reaction
  dataKey : String
  nameKey : String
  cells : List PieCell

/-- The label of each segment: the label callback on the entry's `nameKey` and `dataKey`
fields, in the order of `data`. -/
def Pie.labels (p : Pie) : List String :=
  p.data.map (fun r => pieLabel (r.get p.nameKey) (r.get p.dataKey))

/-- The cells `reactions.map((entry, index) => ...)` builds. -/
def pieCells (rs : List Reaction) : List PieCell :=
  rs.mapIdx (fun index entry =>
    { key := "cell-" ++ toStringJS (count index), fill := entry.color })

/-- A row of the legend. -/
structure LegendRow where
  key : String
  swatch : JSValue
  name : String
  value : String
  deriving DecidableEq, Repr

/-- The row `reactions.map((r) => ...)` builds for `r`. -/
def legendRow (r : Reaction) : LegendRow :=
  { key := toStringJS r.name
    swatch := r.color
    name := textChild r.name
    value := textChild r.value }

/-- What the component binds to its widgets. -/
structure View where
  lineChart : LineChart
  barChart : BarChart
  summary : Summary
  cards : List ContributorCard
  pie : Pie
  legend : List LegendRow

/-- The component: it reads the loaded module and assigns to nothing. -/
def ChatCommentsDashboardPreview (m : Module) : View :=
  { lineChart :=
      { data := m.data.activityTimeline, xDataKey := "date", lineDataKey := "messages" }
    barChart :=
      { data := m.data.topTopics, categoryDataKey := "name", barDataKey := "value" }
    summary :=
      { totalReactions := textChild m.totalReactions
        users := textChild (count m.data.topUsers.length) ++ " users"
        totalResponses := textChild m.totalResponses
        reactions := textChild m.totalReactions }
    cards := m.data.topUsers.map contributorCard
    pie :=
      { data := m.data.reactions, dataKey := "value", nameKey := "name"
        cells := pieCells m.data.reactions }
    legend := m.data.reactions.map legendRow }

/-! ## Notions the statements use -/

/-- The reduction both derivations run, read on the summed fields alone: it starts from `s`
and adds `v || 0` for each field `v`. -/
def sumFields (s : JSValue) (vs : List JSValue) : JSValue :=
  vs.foldl (fun s v => jsAdd s (jsOr v (count 0))) s

/-- The count a field holds when it is a non-negative integer, and 0 for any other field. -/
def fieldCount : JSValue → Nat
  | .num (.fin n) => n
  | _ => 0

/-- The falsy values other than the number 0: what a missing field reads as (`undefined`),
`null`, `false`, `NaN` and the empty string. -/
def falsyValues : List JSValue := [.undefined, .null, .bool false, .num .nan, .str ""]

/-- The largest finite double, `Number.MAX_VALUE`: `(2 ^ 53 - 1) * 2 ^ 971`. -/
def MAX_VALUE : Nat := (2 ^ 53 - 1) * ((2 ^ 256) ^ 3 * 2 ^ 203)

/-! ## Rounding -/

theorem OVERFLOW_eq : OVERFLOW = 2 ^ (53 + 971) := by
  norm_num [OVERFLOW]

theorem toDouble_of_le {n : Nat} (h : n ≤ 2 ^ 53) : toDouble n = .fin n := by
  rcases Nat.lt_or_ge n (2 ^ 53) with h1 | h1
  · rw [toDouble, if_pos h1]
  · have : n = 2 ^ 53 := Nat.le_antisymm h h1
    subst this
    decide

theorem binadeShift_of_lt (fuel : Nat) {n : Nat} (h : n < 2 ^ 53) : binadeShift fuel n = 0 := by
  cases fuel with
  | zero => rfl
  | succ f => rw [binadeShift, if_pos h]

theorem binadeShift_lower (fuel : Nat) :
    ∀ n, 2 ^ 53 ≤ n → 2 ^ 52 ≤ n / 2 ^ binadeShift fuel n := by
  induction fuel with
  | zero => intro n h; rw [binadeShift, pow_zero, Nat.div_one]; omega
  | succ f ih =>
    intro n h
    have hn : ¬ n < 2 ^ 53 := by omega
    rw [binadeShift, if_neg hn,
      show (2:Nat) ^ (binadeShift f (n / 2) + 1) = 2 * 2 ^ binadeShift f (n / 2) from
        Nat.pow_succ', ← Nat.div_div_eq_div_mul]
    rcases Nat.lt_or_ge (n / 2) (2 ^ 53) with h2 | h2
    · rw [binadeShift_of_lt f h2, pow_zero, Nat.div_one]; omega
    · exact ih _ h2

theorem binadeShift_upper (fuel : Nat) :
    ∀ n, n < 2 ^ (53 + fuel) → n / 2 ^ binadeShift fuel n < 2 ^ 53 := by
  induction fuel with
  | zero => intro n h; rw [binadeShift, pow_zero, Nat.div_one]; exact h
  | succ f ih =>
    intro n h
    rcases Nat.lt_or_ge n (2 ^ 53) with h1 | h1
    · rw [binadeShift_of_lt _ h1, pow_zero, Nat.div_one]; exact h1
    · have hn : ¬ n < 2 ^ 53 := by omega
      rw [binadeShift, if_neg hn,
        show (2:Nat) ^ (binadeShift f (n / 2) + 1) = 2 * 2 ^ binadeShift f (n / 2) from
          Nat.pow_succ', ← Nat.div_div_eq_div_mul]
      apply ih
      have : 2 ^ (53 + (f + 1)) = 2 * 2 ^ (53 + f) := by rw [← Nat.add_assoc, pow_succ']
      omega

theorem binadeShift_pos (fuel : Nat) {n : Nat} (h : 2 ^ 53 ≤ n) (hf : 0 < fuel) :
    0 < binadeShift fuel n := by
  cases fuel with
  | zero => omega
  | succ f =>
    have hn : ¬ n < 2 ^ 53 := by omega
    rw [binadeShift, if_neg hn]; omega

/-- What rounding returns on an integer that needs it: `+Infinity`, or a multiple of the
binade's spacing that is no smaller than the integer rounded down. -/
theorem toDouble_cases {n : Nat} (h : 2 ^ 53 ≤ n) :
    toDouble n = .inf ∨
      ∃ u, toDouble n = .fin (u * 2 ^ binadeShift 971 n) ∧ n / 2 ^ binadeShift 971 n ≤ u ∧
        n < 2 ^ (53 + 971) := by
  have hn : ¬ n < 2 ^ 53 := by omega
  rw [toDouble, if_neg hn]
  by_cases ho : OVERFLOW ≤ n
  · left; rw [if_pos ho]
  · rw [if_neg ho]
    have hlt : n < 2 ^ (53 + 971) := by rw [← OVERFLOW_eq]; omega
    dsimp only
    split_ifs with h1 h2 h3
    · right; exact ⟨_, rfl, Nat.le_succ _, hlt⟩
    · left; rfl
    · right; exact ⟨_, rfl, Nat.le_refl _, hlt⟩
    · left; rfl

theorem toDouble_ne_nan (n : Nat) : toDouble n ≠ .nan := by
  rcases Nat.lt_or_ge n (2 ^ 53) with h | h
  · rw [toDouble, if_pos h]; simp
  · rcases toDouble_cases h with h1 | ⟨u, h1, -⟩ <;> rw [h1] <;> simp

/-- Rounding never falls below a double that the exact value reaches. -/
theorem le_toDouble {x n : Nat} (hx : IsDouble x) (hxn : x ≤ n) :
    JSNum.le (.fin x) (toDouble n) := by
  rcases Nat.lt_or_ge n (2 ^ 53) with h | h
  · rw [toDouble, if_pos h]; exact hxn
  · rcases toDouble_cases h with h1 | ⟨u, h1, hu, hlt⟩
    · rw [h1]; trivial
    · rw [h1]
      show x ≤ u * 2 ^ binadeShift 971 n
      have hq := binadeShift_lower 971 n h
      have hq2 := binadeShift_upper 971 n hlt
      have hk := binadeShift_pos 971 h (by norm_num)
      set k := binadeShift 971 n with hkdef
      have hfloor : n / 2 ^ k * 2 ^ k ≤ u * 2 ^ k := Nat.mul_le_mul_right _ hu
      refine Nat.le_trans ?_ hfloor
      rcases Nat.lt_or_ge x (2 ^ 52 * 2 ^ k) with hs | hs
      · exact Nat.le_trans (Nat.le_of_lt hs) (Nat.mul_le_mul_right _ hq)
      · -- x lies in the binade of n or above: it is a multiple of 2 ^ k
        have hx53 : 2 ^ 53 ≤ x := by
          have : 2 ^ 52 * 2 ^ 1 ≤ 2 ^ 52 * 2 ^ k :=
            Nat.mul_le_mul_left _ (Nat.pow_le_pow_right (by norm_num) hk)
          have e : (2:Nat) ^ 52 * 2 ^ 1 = 2 ^ 53 := by norm_num
          omega
        rcases toDouble_cases hx53 with h2 | ⟨v, h2, hv, hxlt⟩
        · rw [IsDouble, h2] at hx; cases hx
        · rw [IsDouble, h2] at hx
          have hxe : v * 2 ^ binadeShift 971 x = x := by injection hx
          have hxu := binadeShift_upper 971 x hxlt
          set j := binadeShift 971 x with hjdef
          -- k ≤ j
          have hxlt2 : x < 2 ^ 53 * 2 ^ j := Nat.lt_mul_of_div_lt hxu (Nat.two_pow_pos j)
          have hkj : k ≤ j := by
            by_contra hc
            have hjk : j + 1 ≤ k := by omega
            have : 2 ^ 53 * 2 ^ j ≤ 2 ^ 52 * 2 ^ k := by
              calc 2 ^ 53 * 2 ^ j = 2 ^ 52 * 2 ^ (j + 1) := by rw [pow_succ]; ring
                _ ≤ 2 ^ 52 * 2 ^ k := Nat.mul_le_mul_left _ (Nat.pow_le_pow_right (by norm_num) hjk)
            omega
          have hdvd : 2 ^ k ∣ x := by
            rw [← hxe]
            exact Dvd.dvd.mul_left (Nat.pow_dvd_pow 2 hkj) v
          calc x = x / 2 ^ k * 2 ^ k := (Nat.div_mul_cancel hdvd).symm
            _ ≤ n / 2 ^ k * 2 ^ k := Nat.mul_le_mul_right _ (Nat.div_le_div_right hxn)

/-! ## The reduction -/

theorem jsOr_count (n : Nat) : jsOr (count n) (count 0) = count n := by
  by_cases h : n = 0
  · subst h; rfl
  · simp [jsOr, count, toBoolean, h]

theorem jsOr_falsy {v : JSValue} (h : v ∈ falsyValues) : jsOr v (count 0) = count 0 := by
  simp only [falsyValues, List.mem_cons, List.mem_singleton, List.not_mem_nil, or_false] at h
  rcases h with h | h | h | h | h <;> subst h <;> rfl

theorem jsAdd_count (a b : Nat) : jsAdd (count a) (count b) = .num (toDouble (a + b)) := rfl

theorem jsAdd_num (x : JSNum) (b : Nat) : jsAdd (.num x) (count b) = .num (numAdd x (.fin b)) :=
  rfl

theorem totalReactions_eq_sumFields (rs : List Reaction) :
    totalReactions rs = sumFields (count 0) (rs.map (·.value)) := by
  simp [totalReactions, sumFields, List.foldl_map]

theorem totalResponses_eq_sumFields (us : List Contributor) :
    totalResponses us = sumFields (count 0) (us.map (·.engagement)) := by
  simp [totalResponses, sumFields, List.foldl_map]

/-- Below `2 ^ 53` the reduction is exact: falsy fields add 0, counts add themselves. -/
theorem sumFields_exact (vs : List JSValue) :
    ∀ a : Nat, (∀ v ∈ vs, v ∈ falsyValues ∨ ∃ n, v = count n) →
      a + (vs.map fieldCount).sum ≤ 2 ^ 53 →
      sumFields (count a) vs = count (a + (vs.map fieldCount).sum) := by
  induction vs with
  | nil => intro a _ _; simp [sumFields]
  | cons v vs ih =>
    intro a hv hs
    simp only [List.map_cons, List.sum_cons] at hs ⊢
    have hstep : jsAdd (count a) (jsOr v (count 0)) = count (a + fieldCount v) := by
      rcases hv v (List.mem_cons_self _ _) with h | ⟨n, h⟩
      · have h0 : fieldCount v = 0 := by
          simp only [falsyValues, List.mem_cons, List.mem_singleton, List.not_mem_nil,
            or_false] at h
          rcases h with h | h | h | h | h <;> subst h <;> rfl
        rw [jsOr_falsy h, jsAdd_count, h0, toDouble_of_le (by omega)]; rfl
      · subst h
        have h0 : fieldCount (count n) = n := rfl
        rw [jsOr_count, jsAdd_count, h0, toDouble_of_le (by omega)]; rfl
    have := ih (a + fieldCount v) (fun w hw => hv w (List.mem_cons_of_mem _ hw)) (by omega)
    simp only [sumFields, List.foldl_cons] at this ⊢
    rw [hstep, this, Nat.add_assoc]

theorem map_fieldCount_count (ns : List Nat) : (ns.map count).map fieldCount = ns := by
  induction ns with
  | nil => rfl
  | cons n ns ih => simp only [List.map_cons, ih]; rfl

theorem sumFields_counts (ns : List Nat) (hs : ns.sum ≤ 2 ^ 53) :
    sumFields (count 0) (ns.map count) = count ns.sum := by
  have h := sumFields_exact (ns.map count) 0
    (fun v hv => by
      rcases List.mem_map.1 hv with ⟨n, -, rfl⟩
      exact Or.inr ⟨n, rfl⟩)
    (by rw [map_fieldCount_count]; omega)
  rw [map_fieldCount_count, Nat.zero_add] at h
  exact h

theorem JSNum.le_numAdd {p n : Nat} {y : JSNum} (hp : IsDouble p) (hy : y ≠ .nan)
    (h : JSNum.le (.fin p) y ∨ p = n) : JSNum.le (.fin p) (numAdd y (.fin n)) := by
  cases y with
  | nan => exact absurd rfl hy
  | inf => trivial
  | fin m =>
    show JSNum.le (.fin p) (toDouble (m + n))
    apply le_toDouble hp
    rcases h with h | h
    · have : p ≤ m := h
      omega
    · omega

theorem numAdd_ne_nan {y : JSNum} (n : Nat) (hy : y ≠ .nan) : numAdd y (.fin n) ≠ .nan := by
  cases y with
  | nan => exact absurd rfl hy
  | inf => simp [numAdd]
  | fin m => exact toDouble_ne_nan _

/-- The reduction over doubles never falls below a field it has added. -/
theorem sumFields_bound (ns : List Nat) :
    ∀ (y : JSNum) (seen : List Nat), (∀ n ∈ ns, IsDouble n) → y ≠ .nan →
      (∀ p ∈ seen, IsDouble p ∧ JSNum.le (.fin p) y) →
      ∃ z, sumFields (.num y) (ns.map count) = .num z ∧ z ≠ .nan ∧
        (∀ p ∈ seen, JSNum.le (.fin p) z) ∧ ∀ n ∈ ns, JSNum.le (.fin n) z := by
  induction ns with
  | nil =>
    intro y seen _ hy hseen
    exact ⟨y, rfl, hy, fun p hp => (hseen p hp).2, fun n hn => absurd hn (List.not_mem_nil n)⟩
  | cons n ns ih =>
    intro y seen hd hy hseen
    have hn : IsDouble n := hd n (List.mem_cons_self _ _)
    obtain ⟨z, hz, hznan, hzseen, hzns⟩ := ih (numAdd y (.fin n)) (n :: seen)
      (fun m hm => hd m (List.mem_cons_of_mem _ hm)) (numAdd_ne_nan n hy)
      (fun p hp => by
        rcases List.mem_cons.1 hp with h | h
        · subst h; exact ⟨hn, JSNum.le_numAdd hn hy (Or.inr rfl)⟩
        · exact ⟨(hseen p h).1, JSNum.le_numAdd (hseen p h).1 hy (Or.inl (hseen p h).2)⟩)
    refine ⟨z, ?_, hznan, fun p hp => hzseen p (List.mem_cons_of_mem _ hp), ?_⟩
    · simp only [sumFields, List.map_cons, List.foldl_cons] at hz ⊢
      rw [jsOr_count, jsAdd_num]; exact hz
    · intro m hm
      rcases List.mem_cons.1 hm with h | h
      · subst h; exact hzseen _ (List.mem_cons_self _ _)
      · exact hzns m h

/-! ## Derived totals -/

/-- C1, as amended: for reaction records whose `value` fields are the non-negative integers
`ns`, with exact sum at most `2 ^ 53`, `totalReactions` returns exactly the sum of the
`value` fields; for the empty sequence it returns 0. -/
theorem totalReactions_exact (rs : List Reaction) (ns : List Nat)
    (hv : rs.map (·.value) = ns.map count) (hs : ns.sum ≤ 2 ^ 53) :
    totalReactions rs = count ns.sum ∧ totalReactions [] = count 0 := by
  refine ⟨?_, rfl⟩
  rw [totalReactions_eq_sumFields, hv]
  exact sumFields_counts ns hs

theorem totalReactions_exact_witness :
    totalReactions [⟨.str "Like", count 5, .str "#58A6FF"⟩, ⟨.str "Love", count 0, .str "#F85149"⟩,
        ⟨.str "Wow", count 7, .null⟩] = count 12 ∧
      totalReactions [] = count 0 :=
  totalReactions_exact _ [5, 0, 7] (by decide) (by decide)

/-- C1 as stated fails: the values `2 ^ 53` and `1` are non-negative integers and doubles,
their sum is `2 ^ 53 + 1`, and `totalReactions` returns `2 ^ 53`. -/
theorem totalReactions_inexact :
    IsDouble 9007199254740992 ∧ IsDouble 1 ∧
      totalReactions [⟨.str "Like", count 9007199254740992, .str "#58A6FF"⟩,
        ⟨.str "Love", count 1, .str "#F85149"⟩] = count 9007199254740992 ∧
      totalReactions [⟨.str "Like", count 9007199254740992, .str "#58A6FF"⟩,
        ⟨.str "Love", count 1, .str "#F85149"⟩] ≠ count (9007199254740992 + 1) := by
  decide

/-- C2, as amended: for contributor records whose `engagement` fields are the non-negative
integers `ns`, with exact sum at most `2 ^ 53`, `totalResponses` returns exactly the sum of
the `engagement` fields; two sequences with the same `engagement` fields have the same total,
whatever their `name` and `messages` fields; for the empty sequence the total is 0. -/
theorem totalResponses_exact (us : List Contributor) (ns : List Nat)
    (hv : us.map (·.engagement) = ns.map count) (hs : ns.sum ≤ 2 ^ 53) :
    totalResponses us = count ns.sum ∧
      (∀ ws : List Contributor, ws.map (·.engagement) = us.map (·.engagement) →
        totalResponses ws = totalResponses us) ∧
      totalResponses [] = count 0 := by
  refine ⟨?_, ?_, rfl⟩
  · rw [totalResponses_eq_sumFields, hv]
    exact sumFields_counts ns hs
  · intro ws hw
    rw [totalResponses_eq_sumFields, totalResponses_eq_sumFields, hw]

theorem totalResponses_exact_witness :
    totalResponses [⟨.str "Ann", count 2, count 150⟩, ⟨.str "Bob", count 9, count 4⟩] =
        count 154 ∧
      (∀ ws : List Contributor,
        ws.map (·.engagement) =
            [(⟨.str "Ann", count 2, count 150⟩ : Contributor),
              ⟨.str "Bob", count 9, count 4⟩].map (·.engagement) →
          totalResponses ws =
            totalResponses [⟨.str "Ann", count 2, count 150⟩, ⟨.str "Bob", count 9, count 4⟩]) ∧
      totalResponses [] = count 0 :=
  totalResponses_exact _ [150, 4] (by decide) (by decide)

/-- C2 as stated fails: the engagements `2 ^ 53` and `1` are non-negative integers and
doubles, their sum is `2 ^ 53 + 1`, and `totalResponses` returns `2 ^ 53`. -/
theorem totalResponses_inexact :
    IsDouble 9007199254740992 ∧ IsDouble 1 ∧
      totalResponses [⟨.str "Ann", count 3, count 9007199254740992⟩,
        ⟨.str "Bob", count 1, count 1⟩] = count 9007199254740992 ∧
      totalResponses [⟨.str "Ann", count 3, count 9007199254740992⟩,
        ⟨.str "Bob", count 1, count 1⟩] ≠ count (9007199254740992 + 1) := by
  decide

/-- C3, as amended: on records whose summed field is missing (`undefined`), `null`, `false`,
`NaN`, the empty string or a non-negative integer, with the integers summing to at most
`2 ^ 53`, both reductions return the number that is the sum of the integer fields, every
other field contributing 0. -/
theorem totals_coerce_falsy (rs : List Reaction) (us : List Contributor)
    (hr : ∀ r ∈ rs, r.value ∈ falsyValues ∨ ∃ n, r.value = count n)
    (hu : ∀ u ∈ us, u.engagement ∈ falsyValues ∨ ∃ n, u.engagement = count n)
    (hrs : (rs.map (fun r => fieldCount r.value)).sum ≤ 2 ^ 53)
    (hus : (us.map (fun u => fieldCount u.engagement)).sum ≤ 2 ^ 53) :
    totalReactions rs = count (rs.map (fun r => fieldCount r.value)).sum ∧
      totalResponses us = count (us.map (fun u => fieldCount u.engagement)).sum := by
  constructor
  · rw [totalReactions_eq_sumFields]
    have h := sumFields_exact (rs.map (·.value)) 0
      (fun v hv => by
        rcases List.mem_map.1 hv with ⟨r, hr1, rfl⟩
        exact hr r hr1)
      (by simpa [List.map_map, Function.comp_def] using hrs)
    simpa [List.map_map, Function.comp_def] using h
  · rw [totalResponses_eq_sumFields]
    have h := sumFields_exact (us.map (·.engagement)) 0
      (fun v hv => by
        rcases List.mem_map.1 hv with ⟨u, hu1, rfl⟩
        exact hu u hu1)
      (by simpa [List.map_map, Function.comp_def] using hus)
    simpa [List.map_map, Function.comp_def] using h

theorem totals_coerce_falsy_witness :
    totalReactions [⟨.str "Like", count 38, .str "#58A6FF"⟩, ⟨.str "Love", .undefined, .null⟩,
        ⟨.str "Wow", .str "", .null⟩, ⟨.str "Sad", .num .nan, .null⟩] =
        count 38 ∧
      totalResponses [⟨.str "Ann", count 2, .null⟩, ⟨.str "Bob", count 9, count 4⟩,
        ⟨.str "Cy", count 1, .bool false⟩] =
        count 4 :=
  totals_coerce_falsy _ _ (by simp [falsyValues, count]) (by simp [falsyValues, count])
    (by decide) (by decide)

/-- C3 as stated fails: a field `true` adds 1 instead of 0, and a field `"5"` turns the
result into the string `"05"`, which is no number. -/
theorem totals_truthy_not_coerced :
    totalReactions [⟨.str "Like", .bool true, .str "#58A6FF"⟩] = count 1 ∧
      totalReactions [⟨.str "Like", .bool true, .str "#58A6FF"⟩] ≠ count 0 ∧
      totalResponses [⟨.str "Ann", count 3, .str "5"⟩] = .str "05" ∧
      ∀ x, totalResponses [⟨.str "Ann", count 3, .str "5"⟩] ≠ .num x := by
  refine ⟨by decide, by decide, by decide, ?_⟩
  intro x h
  have h2 : totalResponses [⟨.str "Ann", count 3, .str "5"⟩] = .str "05" := by decide
  rw [h2] at h
  cases h

/-- C6, as amended: for records whose summed fields are the non-negative integers `ns`
(doubles, as every number of the language), each total is a number that is a non-negative
integer or `+Infinity`, it is at least as large as every field, and it is the non-negative
integer `ns.sum` whenever that sum is at most `2 ^ 53`. -/
theorem totals_bound (rs : List Reaction) (us : List Contributor) (ns ms : List Nat)
    (hv : rs.map (·.value) = ns.map count) (hu : us.map (·.engagement) = ms.map count)
    (hn : ∀ n ∈ ns, IsDouble n) (hm : ∀ m ∈ ms, IsDouble m) :
    (∃ y, totalReactions rs = .num y ∧ (y = .inf ∨ ∃ k, y = .fin k) ∧
        (∀ n ∈ ns, JSNum.le (.fin n) y) ∧ (ns.sum ≤ 2 ^ 53 → y = .fin ns.sum)) ∧
      (∃ y, totalResponses us = .num y ∧ (y = .inf ∨ ∃ k, y = .fin k) ∧
        (∀ m ∈ ms, JSNum.le (.fin m) y) ∧ (ms.sum ≤ 2 ^ 53 → y = .fin ms.sum)) := by
  have key : ∀ ks : List Nat, (∀ k ∈ ks, IsDouble k) →
      ∃ y, sumFields (count 0) (ks.map count) = .num y ∧ (y = .inf ∨ ∃ k, y = .fin k) ∧
        (∀ k ∈ ks, JSNum.le (.fin k) y) ∧ (ks.sum ≤ 2 ^ 53 → y = .fin ks.sum) := by
    intro ks hk
    obtain ⟨z, hz, hznan, -, hzks⟩ := sumFields_bound ks (.fin 0) [] hk (by simp)
      (fun p hp => absurd hp (List.not_mem_nil p))
    refine ⟨z, hz, ?_, hzks, ?_⟩
    · cases z with
      | nan => exact absurd rfl hznan
      | inf => exact Or.inl rfl
      | fin k => exact Or.inr ⟨k, rfl⟩
    · intro hs
      have h2 := sumFields_counts ks hs
      have h3 : sumFields (count 0) (ks.map count) = .num z := hz
      rw [h2] at h3
      injection h3 with h4
      exact h4.symm
  constructor
  · rw [totalReactions_eq_sumFields, hv]; exact key ns hn
  · rw [totalResponses_eq_sumFields, hu]; exact key ms hm

theorem totals_bound_witness :
    (∃ y, totalReactions [⟨.str "Like", count 38, .str "#58A6FF"⟩,
          ⟨.str "Love", count 24, .str "#F85149"⟩] = .num y ∧
        (y = .inf ∨ ∃ k, y = .fin k) ∧
        (∀ n ∈ [38, 24], JSNum.le (.fin n) y) ∧ (([38, 24] : List Nat).sum ≤ 2 ^ 53 →
          y = .fin ([38, 24] : List Nat).sum)) ∧
      (∃ y, totalResponses [⟨.str "Ann", count 2, count 150⟩] = .num y ∧
        (y = .inf ∨ ∃ k, y = .fin k) ∧
        (∀ m ∈ [150], JSNum.le (.fin m) y) ∧ (([150] : List Nat).sum ≤ 2 ^ 53 →
          y = .fin ([150] : List Nat).sum)) :=
  totals_bound _ _ [38, 24] [150] (by decide) (by decide) (by decide) (by decide)

set_option maxRecDepth 100000

/-- C6 as stated fails: `Number.MAX_VALUE` is a non-negative integer and a double, and the
total of two records holding it is `+Infinity`, which is no integer. -/
theorem totals_overflow :
    IsDouble MAX_VALUE ∧
      totalReactions [⟨.str "Like", count MAX_VALUE, .str "#58A6FF"⟩,
        ⟨.str "Love", count MAX_VALUE, .str "#F85149"⟩] = .num .inf ∧
      ∀ k, totalReactions [⟨.str "Like", count MAX_VALUE, .str "#58A6FF"⟩,
        ⟨.str "Love", count MAX_VALUE, .str "#F85149"⟩] ≠ count k := by
  have h1 : IsDouble MAX_VALUE := by decide
  have h2 : totalReactions [⟨.str "Like", count MAX_VALUE, .str "#58A6FF"⟩,
      ⟨.str "Love", count MAX_VALUE, .str "#F85149"⟩] = .num .inf := by decide
  refine ⟨h1, h2, ?_⟩
  intro k h
  rw [h2] at h
  cases h

/-! ## Bindings -/

theorem numberToString_small {n : Nat} (h : n < 2 ^ 53) : numberToString (.fin n) = Nat.repr n := by
  rw [numberToString, if_pos h]

/-- C4: for a contributor whose engagement is the non-negative integer `e`, the width of the
bar is `min 100 e` percent, which is `e` percent up to 100 and exactly 100 percent above,
never more than 100 percent, while the engagement text of the card is that of `e` itself,
uncapped; engagement 150 gives width `100%` and text `150`, and the embedded 102 gives
`100%` and `102`. -/
theorem contributorCard_bar_capped (name messages : JSValue) (e : Nat) :
    mathMin100 (count e) = some (.fin (min 100 e)) ∧
      (contributorCard ⟨name, messages, count e⟩).barWidth =
        some (Nat.repr (if e ≤ 100 then e else 100) ++ "%") ∧
      min 100 e = (if e ≤ 100 then e else 100) ∧ min 100 e ≤ 100 ∧
      (contributorCard ⟨name, messages, count e⟩).engagement = textChild (count e) ∧
      textChild (count e) = numberToString (.fin e) ∧
      (contributorCard ⟨name, messages, count 150⟩).barWidth = some "100%" ∧
      (contributorCard ⟨name, messages, count 150⟩).engagement = "150" ∧
      (topUsers.map contributorCard).head?.map (fun c => (c.barWidth, c.engagement)) =
        some (some "100%", "102") := by
  have hle : min 100 e ≤ 100 := Nat.min_le_left _ _
  have hmin : min 100 e < 2 ^ 53 := by omega
  have hif : min 100 e = (if e ≤ 100 then e else 100) := by
    split_ifs with h
    · exact Nat.min_eq_right h
    · exact Nat.min_eq_left (by omega)
  refine ⟨rfl, ?_, hif, hle, rfl, rfl, rfl, rfl, by decide⟩
  show some (numberToString (.fin (min 100 e)) ++ "%") = _
  rw [numberToString_small hmin, hif]

/-- C5: on the embedded arrays the totals are 82 (reaction values 38, 24, 12, 8) and 215
(engagements 102, 47, 26, 20, 20), and the summary boxes show `82` and `215`. -/
theorem sample_totals :
    reactions.map (·.value) = [38, 24, 12, 8].map count ∧
      topUsers.map (·.engagement) = [102, 47, 26, 20, 20].map count ∧
      totalReactions reactions = count 82 ∧ totalResponses topUsers = count 215 ∧
      (load sample).totalReactions = count 82 ∧ (load sample).totalResponses = count 215 ∧
      (ChatCommentsDashboardPreview (load sample)).summary.totalReactions = "82" ∧
      (ChatCommentsDashboardPreview (load sample)).summary.totalResponses = "215" ∧
      (ChatCommentsDashboardPreview (load sample)).summary.reactions = "82" := by
  decide

/-- C7: the data bound to the line chart is the timeline list itself, the points read from
it are the `(date, messages)` pairs of its records, one per record and in the order of the
list; a list that is not in date order is plotted as given. -/
theorem lineChart_keeps_order (c : Collections) :
    (ChatCommentsDashboardPreview (load c)).lineChart.data = c.activityTimeline ∧
      (ChatCommentsDashboardPreview (load c)).lineChart.xDataKey = "date" ∧
      (ChatCommentsDashboardPreview (load c)).lineChart.lineDataKey = "messages" ∧
      (ChatCommentsDashboardPreview (load c)).lineChart.points =
        c.activityTimeline.map (fun p => (p.date, p.messages)) ∧
      (ChatCommentsDashboardPreview (load c)).lineChart.points.length =
        c.activityTimeline.length ∧
      (ChatCommentsDashboardPreview (load
          { c with activityTimeline :=
              [⟨.str "Oct 6", count 3⟩, ⟨.str "Jul 22", count 1⟩] })).lineChart.points =
        [(.str "Oct 6", count 3), (.str "Jul 22", count 1)] := by
  refine ⟨rfl, rfl, rfl, ?_, ?_, ?_⟩
  · simp [ChatCommentsDashboardPreview, load, LineChart.points, TimelinePoint.get]
  · simp [ChatCommentsDashboardPreview, load, LineChart.points]
  · simp [ChatCommentsDashboardPreview, load, LineChart.points, TimelinePoint.get]

theorem pieCells_length (rs : List Reaction) : (pieCells rs).length = rs.length := by
  simp [pieCells]

theorem pieCells_get (rs : List Reaction) (i : Nat) :
    (pieCells rs)[i]? =
      rs[i]?.map (fun entry => { key := "cell-" ++ toStringJS (count i), fill := entry.color }) := by
  simp [pieCells]

theorem pieCells_fill (rs : List Reaction) : (pieCells rs).map (·.fill) = rs.map (·.color) := by
  apply List.ext_getElem?
  intro i
  rw [List.getElem?_map, List.getElem?_map, pieCells_get]
  cases rs[i]? <;> rfl

/-- C8: the pie gets one cell per reaction record, in input order, filled with the
record's color; the label of each segment is the record's name, a colon and a blank, and the
record's value; the legend has one row per record, in the same order, with the record's
name, value and color. -/
theorem pie_and_legend_follow_records (c : Collections) :
    (ChatCommentsDashboardPreview (load c)).pie.data = c.reactions ∧
      (ChatCommentsDashboardPreview (load c)).pie.cells.length = c.reactions.length ∧
      (ChatCommentsDashboardPreview (load c)).pie.cells.map (·.fill) =
        c.reactions.map (·.color) ∧
      (ChatCommentsDashboardPreview (load c)).pie.labels =
        c.reactions.map (fun r => toStringJS r.name ++ ": " ++ toStringJS r.value) ∧
      (ChatCommentsDashboardPreview (load c)).legend.length = c.reactions.length ∧
      (ChatCommentsDashboardPreview (load c)).legend.map (fun l => (l.name, l.value, l.swatch)) =
        c.reactions.map (fun r => (textChild r.name, textChild r.value, r.color)) ∧
      (∀ name color : String, ∀ n : Nat,
        pieLabel (.str name) (count n) = name ++ ": " ++ numberToString (.fin n) ∧
        legendRow ⟨.str name, count n, .str color⟩ =
          ⟨name, .str color, name, numberToString (.fin n)⟩) ∧
      (ChatCommentsDashboardPreview (load sample)).pie.labels.getLast? = some "Confused ðŸ¤”: 8" := by
  refine ⟨rfl, pieCells_length _, pieCells_fill _, ?_, ?_, ?_, fun _ _ _ => ⟨rfl, rfl⟩, by decide⟩
  · simp [ChatCommentsDashboardPreview, load, Pie.labels, Reaction.get, pieLabel]
  · simp [ChatCommentsDashboardPreview, load]
  · simp [ChatCommentsDashboardPreview, load, legendRow]

/-- C10: in the embedded data the names of the five contributors are pairwise distinct and
the names of the four reactions are pairwise distinct, so the keys of the contributor cards
and of the legend rows are pairwise distinct. -/
theorem sample_keys_unique :
    topUsers.length = 5 ∧ reactions.length = 4 ∧
      (topUsers.map (·.name)).Nodup ∧ (reactions.map (·.name)).Nodup ∧
      ((ChatCommentsDashboardPreview (load sample)).cards.map (·.key)).Nodup ∧
      ((ChatCommentsDashboardPreview (load sample)).legend.map (·.key)).Nodup := by
  decide

end Dashboard
